import Mathlib

/-!
Verification development for the dtools D64 disk-image engine
(src/lib.rs of the dtools repository).

The Rust code is shallowly embedded as follows:
- the Vec of image bytes is modelled as a total byte function together
  with its length (reads outside the vector never occur in the verified
  scenarios);
- u8 arithmetic that can wrap is modelled with explicit arithmetic mod 256;
- fallible operations return Except D64Error, mirroring Result;
- operations that can panic in Rust, or whose chain-following loops can
  run forever, additionally return Option, where none models a panic or
  divergence, and loops take an explicit fuel argument.
-/

set_option maxRecDepth 100000

namespace Dtools

/-- The constant SECTORS_PER_TRACK from src/lib.rs: sector count of each
track, index = track - 1. -/
def SECTORS_PER_TRACK : List Nat :=
  [21, 21, 21, 21, 21, 21, 21, 21, 21, 21, 21, 21, 21, 21, 21, 21, 21,
   19, 19, 19, 19, 19, 19, 19, 18, 18, 18, 18, 18, 18, 17, 17, 17, 17,
   17, 17, 17, 17, 17, 17]

/-- The constant D64_35_TRACKS_SIZE from src/lib.rs. -/
def D64_35_TRACKS_SIZE : Nat := 174848

/-- The constant D64_40_TRACKS_SIZE from src/lib.rs. -/
def D64_40_TRACKS_SIZE : Nat := 196608

/-- The error enum D64Error from src/lib.rs. -/
inductive D64Error where
  | io
  | invalidFileSize
  | invalidTrackSector
  | fileNotFound
  | diskFull
deriving DecidableEq, Repr

instance {ε α : Type} [DecidableEq ε] [DecidableEq α] : DecidableEq (Except ε α) :=
  fun x y =>
    match x, y with
    | .error e, .error f =>
      if h : e = f then isTrue (by rw [h]) else isFalse (fun hh => by cases hh; exact h rfl)
    | .error _, .ok _ => isFalse (fun hh => by cases hh)
    | .ok _, .error _ => isFalse (fun hh => by cases hh)
    | .ok a, .ok b =>
      if h : a = b then isTrue (by rw [h]) else isFalse (fun hh => by cases hh; exact h rfl)

/-- petscii_to_ascii from src/lib.rs: bytes 0x20..=0x5F pass through,
bytes 0xC1..=0xDA are shifted down by 0x80, everything else becomes the
question mark. -/
def petscii_to_ascii (petscii : List Nat) : String :=
  ⟨petscii.map (fun c =>
    if 0x20 ≤ c ∧ c ≤ 0x5F then Char.ofNat c
    else if 0xC1 ≤ c ∧ c ≤ 0xDA then Char.ofNat (c - 0x80)
    else '?')⟩

/-- ascii_to_petscii from src/lib.rs: chars in the space..underscore band
pass through, lowercase letters are shifted down by 32, everything else
becomes byte 0x3F. -/
def ascii_to_petscii (ascii : String) : List Nat :=
  ascii.data.map (fun c =>
    if 0x20 ≤ c.toNat ∧ c.toNat ≤ 0x5F then c.toNat
    else if 0x61 ≤ c.toNat ∧ c.toNat ≤ 0x7A then c.toNat - 32
    else 0x3F)

/-- The struct D64 from src/lib.rs.  The byte vector is modelled as a
total function from index to byte value, plus its length. -/
structure D64 where
  data : Nat → Nat
  size : Nat
  tracks : Nat

/-- D64::new from src/lib.rs. -/
def D64.new (tracks : Nat) : Except D64Error D64 :=
  if tracks ≠ 35 ∧ tracks ≠ 40 then .error .invalidFileSize
  else .ok ⟨fun _ => 0,
            if tracks = 35 then D64_35_TRACKS_SIZE else D64_40_TRACKS_SIZE,
            tracks⟩

/-- Total byte size of the first n tracks; this is the prefix sum the
offset loop of D64::sector_offset computes. -/
def preBytes : Nat → Nat
  | 0 => 0
  | n + 1 => preBytes n + SECTORS_PER_TRACK.getD n 0 * 256

/-- D64::sector_offset from src/lib.rs. -/
def D64.sector_offset (d : D64) (track sector : Nat) : Except D64Error Nat :=
  if track = 0 ∨ track > d.tracks ∨ sector ≥ SECTORS_PER_TRACK.getD (track - 1) 0 then
    .error .invalidTrackSector
  else
    .ok (preBytes (track - 1) + sector * 256)

/-- D64::read_sector from src/lib.rs: the returned 256-byte slice is
materialised as a list. -/
def D64.read_sector (d : D64) (track sector : Nat) : Except D64Error (List Nat) :=
  (d.sector_offset track sector).map
    (fun off => (List.range 256).map (fun j => d.data (off + j)))

/-- D64::write_sector from src/lib.rs.  All in-repository callers pass a
block of exactly 256 bytes, which the copy_from_slice there requires. -/
def D64.write_sector (d : D64) (track sector : Nat) (blk : List Nat) :
    Except D64Error D64 :=
  (d.sector_offset track sector).map (fun off =>
    { d with data := fun i =>
        if off ≤ i ∧ i < off + 256 then blk.getD (i - off) 0 else d.data i })

/-- The label-independent part of the 256-byte BAM sector D64::format
builds: link bytes, DOS type 0x41, per-track free counts and bitmaps,
tracks 18 and 19 zeroed (the Rust loop for track in 18..=19). -/
def formatBamCore (tracks : Nat) : List Nat :=
  (List.range' 17 2).foldl (fun l ti =>
      ((((l.set (4 + ti * 4) 0).set (5 + ti * 4) 0).set (6 + ti * 4) 0).set
        (7 + ti * 4) 0))
    ((List.range tracks).foldl (fun l ti =>
        ((((l.set (4 + ti * 4) (SECTORS_PER_TRACK.getD ti 0)).set
            (5 + ti * 4) 0xFF).set (6 + ti * 4) 0xFF).set
          (7 + ti * 4) (if SECTORS_PER_TRACK.getD ti 0 > 16 then 0xFF
                        else 2 ^ SECTORS_PER_TRACK.getD ti 0 - 1)))
      ((((List.replicate 256 0).set 0 18).set 1 1).set 2 0x41))

/-- The full BAM sector D64::format builds: the core above with the name
and id spliced in at offsets 144 and 162. -/
def formatBamSector (tracks : Nat) (nb ib : List Nat) : List Nat :=
  ((formatBamCore tracks).take 144 ++ nb ++
      (formatBamCore tracks).drop (144 + nb.length)).take 162 ++ ib ++
    ((formatBamCore tracks).take 144 ++ nb ++
      (formatBamCore tracks).drop (144 + nb.length)).drop 164

/-- D64::format from src/lib.rs.  The two copy_from_slice calls there
panic unless the encoded name fits in the sector from offset 144 on and
the encoded id is exactly two bytes; that panic is modelled as none. -/
def D64.format (d : D64) (disk_name disk_id : String) :
    Option (Except D64Error D64) :=
  if 144 + (ascii_to_petscii disk_name).length ≤ 256 ∧
      (ascii_to_petscii disk_id).length = 2 then
    some ((D64.write_sector { d with data := fun _ => 0 } 18 0
        (formatBamSector d.tracks (ascii_to_petscii disk_name)
          (ascii_to_petscii disk_id))).bind
      (fun d1 => d1.write_sector 18 1 ((List.replicate 256 0).set 1 0xFF)))
  else none

/-- str::trim as used by D64::find_file, restricted to ASCII whitespace;
decoded directory names only ever contain characters from the codec
output, of which only the space is whitespace. -/
def rustTrim (s : String) : String :=
  ⟨((s.data.dropWhile (fun c => c = ' ' ∨ c = '\t' ∨ c = '\n' ∨ c = '\r')).reverse.dropWhile
      (fun c => c = ' ' ∨ c = '\t' ∨ c = '\n' ∨ c = '\r')).reverse⟩

/-- The inner slot scan of D64::find_file: the first of the 8 directory
slots holding a visible entry whose decoded, trimmed name equals the
query, returning its start (track, sector). -/
def scanSlotsFind (data : List Nat) (filename : String) : Option (Nat × Nat) :=
  (List.range 8).findSome? (fun k =>
    let i := 32 * k
    let ft := data.getD (i + 2) 0
    if ft ≠ 0 ∧ ft &&& 0x07 ≠ 0 then
      if rustTrim (petscii_to_ascii ((data.drop (i + 5)).take 16)) = filename then
        some (data.getD (i + 3) 0, data.getD (i + 4) 0)
      else none
    else none)

/-- The chain-walking loop of D64::find_file: continue through the
next-sector link byte until it is zero. -/
def findFileLoop (d : D64) (filename : String) :
    Nat → Nat → Option (Except D64Error (Nat × Nat))
  | 0, _ => none
  | fuel + 1, sector =>
    match d.read_sector 18 sector with
    | .error e => some (.error e)
    | .ok data =>
      match scanSlotsFind data filename with
      | some ts => some (.ok ts)
      | none =>
        if data.getD 1 0 = 0 then some (.error .fileNotFound)
        else findFileLoop d filename fuel (data.getD 1 0)

/-- D64::find_file from src/lib.rs. -/
def D64.find_file (d : D64) (filename : String) (fuel : Nat) :
    Option (Except D64Error (Nat × Nat)) :=
  findFileLoop d filename fuel 1

/-- The precondition of claim C2, mirrored over the same walk the code
performs: the directory chain, followed through the next-sector link
byte exactly as D64::find_file follows it, reaches a sector whose link
byte is zero without ever containing a visible matching entry. -/
def dirChainExhaustsLoop (d : D64) (filename : String) : Nat → Nat → Bool
  | 0, _ => false
  | fuel + 1, sector =>
    match d.read_sector 18 sector with
    | .error _ => false
    | .ok data =>
      match scanSlotsFind data filename with
      | some _ => false
      | none =>
        if data.getD 1 0 = 0 then true
        else dirChainExhaustsLoop d filename fuel (data.getD 1 0)

/-- Names of the visible entries of one directory sector, as collected by
the inner loop of D64::list_files: the decoded name stops at the first
0xA0 byte, or uses all 16 bytes when none is present. -/
def slotNames (data : List Nat) : List String :=
  (List.range 8).filterMap (fun k =>
    let i := 32 * k
    let ft := data.getD (i + 2) 0
    if ft ≠ 0 ∧ ft &&& 0x07 ≠ 0 then
      some (petscii_to_ascii (((data.drop (i + 5)).take 16).take
        ((((data.drop (i + 5)).take 16).findIdx? (fun x => x = 0xA0)).getD 16)))
    else none)

/-- The chain-walking loop of D64::list_files, with its visited set and
its own termination tests. -/
def listFilesLoop (d : D64) :
    Nat → Nat → List (Nat × Nat) → List String →
    Option (Except D64Error (List String))
  | 0, _, _, _ => none
  | fuel + 1, sector, visited, files =>
    if (18, sector) ∈ visited then some (.error .invalidTrackSector)
    else
      match d.read_sector 18 sector with
      | .error e => some (.error e)
      | .ok data =>
        let files := files ++ slotNames data
        let nt := data.getD 0 0
        let ns := data.getD 1 0
        if nt = 0 ∨ (nt = 18 ∧ ns = 1) then some (.ok files)
        else if nt ≠ 18 ∨ ns ≥ SECTORS_PER_TRACK.getD 17 0 then
          some (.error .invalidTrackSector)
        else listFilesLoop d fuel ns ((18, sector) :: visited) files

/-- D64::list_files from src/lib.rs. -/
def D64.list_files (d : D64) (fuel : Nat) : Option (Except D64Error (List String)) :=
  listFilesLoop d fuel 1 [] []

/-- The chain-walking loop of D64::extract_file.  When the terminal
length byte makes the payload slice reach past the end of the sector the
Rust slice expression data[2..2 + bytes_to_read] panics, modelled as
none. -/
def extractLoop (d : D64) :
    Nat → Nat → Nat → List Nat → Option (Except D64Error (List Nat))
  | 0, _, _, _ => none
  | fuel + 1, track, sector, content =>
    match d.read_sector track sector with
    | .error e => some (.error e)
    | .ok data =>
      let nt := data.getD 0 0
      let btr := if nt = 0 then data.getD 1 0 else 254
      if 2 + btr ≤ 256 then
        if nt = 0 then some (.ok (content ++ (data.drop 2).take btr))
        else extractLoop d fuel nt (data.getD 1 0) (content ++ (data.drop 2).take btr)
      else none

/-- D64::extract_file from src/lib.rs. -/
def D64.extract_file (d : D64) (filename : String) (fuel : Nat) :
    Option (Except D64Error (List Nat)) :=
  match d.find_file filename fuel with
  | none => none
  | some (.error e) => some (.error e)
  | some (.ok (t, s)) => extractLoop d fuel t s []

/-- The chain-walking loop of D64::trace_file, which records each visited
(track, sector) pair and follows the link bytes with no visited set. -/
def traceLoop (d : D64) :
    Nat → Nat → Nat → List (Nat × Nat) →
    Option (Except D64Error (List (Nat × Nat)))
  | 0, _, _, _ => none
  | fuel + 1, track, sector, acc =>
    match d.read_sector track sector with
    | .error e => some (.error e)
    | .ok data =>
      if data.getD 0 0 = 0 then some (.ok (acc ++ [(track, sector)]))
      else traceLoop d fuel (data.getD 0 0) (data.getD 1 0) (acc ++ [(track, sector)])

/-- D64::trace_file from src/lib.rs. -/
def D64.trace_file (d : D64) (filename : String) (fuel : Nat) :
    Option (Except D64Error (List (Nat × Nat))) :=
  match d.find_file filename fuel with
  | none => none
  | some (.error e) => some (.error e)
  | some (.ok (t, s)) => traceLoop d fuel t s []

/-- The struct BAM from src/lib.rs.  The fixed-size arrays are modelled
as functions from index to byte value. -/
structure BAM where
  tracks : Nat
  free_sectors : Nat → Nat
  bitmap : Nat → Nat → Nat
  disk_name : List Nat
  disk_id : List Nat
  dos_type : Nat

/-- BAM::from_sector_data from src/lib.rs; array slots beyond the track
count keep their zero initialisation. -/
def BAM.from_sector_data (data : List Nat) (tracks : Nat) : Except D64Error BAM :=
  .ok
    { tracks := tracks
      free_sectors := fun t => if t < tracks then data.getD (4 + t * 4) 0 else 0
      bitmap := fun t j => if t < tracks ∧ j < 3 then data.getD (5 + t * 4 + j) 0 else 0
      disk_name := (data.drop 144).take 16
      disk_id := (data.drop 162).take 2
      dos_type := data.getD 2 0 }

/-- BAM::to_sector_data from src/lib.rs. -/
def BAM.to_sector_data (b : BAM) : List Nat :=
  let l0 := (((List.replicate 256 0).set 0 18).set 1 1).set 2 b.dos_type
  let l1 := (List.range b.tracks).foldl (fun l t =>
    ((((l.set (4 + t * 4) (b.free_sectors t)).set (5 + t * 4) (b.bitmap t 0)).set
      (6 + t * 4) (b.bitmap t 1)).set (7 + t * 4) (b.bitmap t 2))) l0
  let l2 := l1.take 144 ++ b.disk_name ++ l1.drop (144 + b.disk_name.length)
  l2.take 162 ++ b.disk_id ++ l2.drop (162 + b.disk_id.length)

/-- BAM::allocate_sector from src/lib.rs: clearing an already clear bit
is a no-op, otherwise the bit is cleared and the free count decremented
(u8 arithmetic, modelled mod 256). -/
def BAM.allocate_sector (b : BAM) (track sector : Nat) : Except D64Error BAM :=
  if track = 0 ∨ track > b.tracks ∨ sector ≥ SECTORS_PER_TRACK.getD (track - 1) 0 then
    .error .invalidTrackSector
  else
    let ti := track - 1
    let bi := sector / 8
    let bit := sector % 8
    if b.bitmap ti bi &&& (1 <<< bit) = 0 then .ok b
    else .ok
      { b with
        bitmap := fun t j =>
          if t = ti ∧ j = bi then b.bitmap ti bi &&& (255 ^^^ (1 <<< bit))
          else b.bitmap t j
        free_sectors := fun t =>
          if t = ti then (b.free_sectors ti + 255) % 256 else b.free_sectors t }

/-- BAM::free_sector from src/lib.rs: setting an already set bit is a
no-op, otherwise the bit is set and the free count incremented
(u8 arithmetic, modelled mod 256). -/
def BAM.free_sector (b : BAM) (track sector : Nat) : Except D64Error BAM :=
  if track = 0 ∨ track > b.tracks ∨ sector ≥ SECTORS_PER_TRACK.getD (track - 1) 0 then
    .error .invalidTrackSector
  else
    let ti := track - 1
    let bi := sector / 8
    let bit := sector % 8
    if b.bitmap ti bi &&& (1 <<< bit) ≠ 0 then .ok b
    else .ok
      { b with
        bitmap := fun t j =>
          if t = ti ∧ j = bi then b.bitmap ti bi ||| (1 <<< bit)
          else b.bitmap t j
        free_sectors := fun t =>
          if t = ti then (b.free_sectors ti + 1) % 256 else b.free_sectors t }

/-- BAM::find_free_sector from src/lib.rs. -/
def BAM.find_free_sector (b : BAM) (track : Nat) : Option Nat :=
  if track = 0 ∨ track > b.tracks then none
  else
    let ti := track - 1
    (List.range 3).findSome? (fun bi =>
      if b.bitmap ti bi ≠ 0 then
        (List.range 8).findSome? (fun bit =>
          if b.bitmap ti bi &&& (1 <<< bit) ≠ 0 ∧
              8 * bi + bit < SECTORS_PER_TRACK.getD ti 0 then
            some (8 * bi + bit)
          else none)
      else none)

/-- BAM::get_free_sectors_count from src/lib.rs. -/
def BAM.get_free_sectors_count (b : BAM) (track : Nat) : Except D64Error Nat :=
  if track = 0 ∨ track > b.tracks then .error .invalidTrackSector
  else .ok (b.free_sectors (track - 1))

/-- BAM::get_disk_name from src/lib.rs. -/
def BAM.get_disk_name (b : BAM) : String :=
  petscii_to_ascii b.disk_name

/-- BAM::get_disk_id from src/lib.rs. -/
def BAM.get_disk_id (b : BAM) : String :=
  petscii_to_ascii b.disk_id

/-- BAM::set_disk_name from src/lib.rs; the slice writes there panic when
the encoded name is longer than the 16-byte field, modelled as none. -/
def BAM.set_disk_name (b : BAM) (name : String) : Option BAM :=
  let nb := ascii_to_petscii name
  if nb.length ≤ 16 then
    some { b with disk_name := nb ++ List.replicate (16 - nb.length) 0xA0 }
  else none

/-- BAM::set_disk_id from src/lib.rs: the expression id_bytes[..2] panics
when the encoded id holds fewer than two bytes, modelled as none. -/
def BAM.set_disk_id (b : BAM) (id : String) : Option BAM :=
  let ib := ascii_to_petscii id
  if 2 ≤ ib.length then some { b with disk_id := ib.take 2 } else none

/-- D64::read_bam from src/lib.rs. -/
def D64.read_bam (d : D64) : Except D64Error BAM :=
  (d.read_sector 18 0).bind (fun data => BAM.from_sector_data data d.tracks)

/-- D64::write_bam from src/lib.rs. -/
def D64.write_bam (d : D64) (b : BAM) : Except D64Error D64 :=
  d.write_sector 18 0 b.to_sector_data

/-- D64::allocate_sector from src/lib.rs. -/
def D64.allocate_sector (d : D64) (track sector : Nat) : Except D64Error D64 :=
  (d.read_bam).bind (fun bam =>
    (bam.allocate_sector track sector).bind (fun bam2 => d.write_bam bam2))

/-- D64::free_sector from src/lib.rs. -/
def D64.free_sector (d : D64) (track sector : Nat) : Except D64Error D64 :=
  (d.read_bam).bind (fun bam =>
    (bam.free_sector track sector).bind (fun bam2 => d.write_bam bam2))

/-- D64::find_free_sector from src/lib.rs. -/
def D64.find_free_sector (d : D64) : Except D64Error (Nat × Nat) :=
  (d.read_bam).bind (fun bam =>
    match (List.range d.tracks).findSome? (fun i =>
        (bam.find_free_sector (i + 1)).map (fun s => (i + 1, s))) with
    | some ts => .ok ts
    | none => .error .diskFull)

/-- D64::create_dir_entry from src/lib.rs: a 32-byte slot with type
0x82, the start pointer, and the encoded name spliced in at offset 5;
the copy_from_slice there panics when the name is longer than 27 bytes,
modelled as none. -/
def D64.create_dir_entry (_d : D64) (filename : String) (track sector : Nat) :
    Option (Except D64Error (List Nat)) :=
  let nb := ascii_to_petscii filename
  if 5 + nb.length ≤ 32 then
    let e0 := (((List.replicate 32 0).set 2 0x82).set 3 track).set 4 sector
    some (.ok (e0.take 5 ++ nb ++ e0.drop (5 + nb.length)))
  else none

/-- The chain-walking loop of D64::write_dir_entry: find the first empty
slot, overwrite it, and write the sector back. -/
def writeDirEntryLoop (d : D64) (entry : List Nat) :
    Nat → Nat → Option (Except D64Error D64)
  | 0, _ => none
  | fuel + 1, sector =>
    match d.read_sector 18 sector with
    | .error e => some (.error e)
    | .ok data =>
      match (List.range 8).findSome? (fun k =>
          if data.getD (32 * k + 2) 0 = 0 then some k else none) with
      | some k =>
        some (d.write_sector 18 sector
          (data.take (32 * k) ++ entry ++ data.drop (32 * k + 32)))
      | none =>
        if data.getD 1 0 = 0 then some (.error .diskFull)
        else writeDirEntryLoop d entry fuel (data.getD 1 0)

/-- The chunking loop of D64::insert_file.  In the more-than-254-bytes
branch the link bytes are written as (track, sector + 1) before the
rollover test picks the sector the next chunk actually goes to. -/
def insertLoop (fuel : Nat) (d : D64) (track sector : Nat) (remaining : List Nat) :
    Option (Except D64Error D64) :=
  match fuel with
  | 0 => none
  | fuel + 1 =>
    if remaining.isEmpty then some (.ok d)
    else
      let big := remaining.length > 254
      let l0 := if big then track else 0
      let l1 := if big then sector + 1 else remaining.length
      let next : Nat × Nat :=
        if big then
          if sector + 1 ≥ SECTORS_PER_TRACK.getD (track - 1) 0 then (track + 1, 0)
          else (track, sector + 1)
        else (0, 0)
      let btw := min remaining.length 254
      match d.write_sector track sector
          ([l0, l1] ++ remaining.take btw ++ List.replicate (254 - btw) 0) with
      | .error e => some (.error e)
      | .ok d2 =>
        if next.1 = 0 then some (.ok d2)
        else insertLoop fuel d2 next.1 next.2 (remaining.drop btw)

/-- D64::insert_file from src/lib.rs. -/
def D64.insert_file (d : D64) (filename : String) (content : List Nat) (fuel : Nat) :
    Option (Except D64Error D64) :=
  match d.find_free_sector with
  | .error e => some (.error e)
  | .ok (track, sector) =>
    match d.create_dir_entry filename track sector with
    | none => none
    | some (.error e) => some (.error e)
    | some (.ok entry) =>
      match writeDirEntryLoop d entry fuel 1 with
      | none => none
      | some (.error e) => some (.error e)
      | some (.ok d1) => insertLoop fuel d1 track sector content

/-! Concrete program states used by the theorems below. -/

/-- The image D64::new(35) returns. -/
def d64_35 : D64 := ⟨fun _ => 0, D64_35_TRACKS_SIZE, 35⟩

/-- The byte content of the Rust literal b"Hello, World!". -/
def helloBytes : List Nat := [72, 101, 108, 108, 111, 44, 32, 87, 111, 114, 108, 100, 33]

/-- The 35-track image after format("TEST DISK", "2A"). -/
def dC1a : D64 :=
  match d64_35.format "TEST DISK" "2A" with
  | some (.ok x) => x
  | _ => d64_35

/-- The image dC1a after insert_file("TEST FILE", b"Hello, World!"). -/
def dC1b : D64 :=
  match dC1a.insert_file "TEST FILE" helloBytes 40 with
  | some (.ok x) => x
  | _ => dC1a

/-- A 35-track image holding one directory entry, file type 0x82, named
"A" padded with spaces, whose first data sector (1,0) links back to
itself: a cyclic data chain.  The D64 fields are public in the Rust
code, so this state is directly constructible there. -/
def imgCyc : D64 :=
  ⟨fun i =>
    if i = 0 then 1
    else if i = 91648 + 2 then 0x82
    else if i = 91648 + 3 then 1
    else if i = 91648 + 5 then 65
    else if 91648 + 6 ≤ i ∧ i ≤ 91648 + 20 then 32
    else 0,
   D64_35_TRACKS_SIZE, 35⟩

/-- A 35-track image holding one directory entry named "A" whose single
data sector (1,0) is terminal (next-track byte 0) with length byte 255. -/
def imgLen255 : D64 :=
  ⟨fun i =>
    if i = 1 then 255
    else if i = 91648 + 2 then 0x82
    else if i = 91648 + 3 then 1
    else if i = 91648 + 5 then 65
    else if 91648 + 6 ≤ i ∧ i ≤ 91648 + 20 then 32
    else 0,
   D64_35_TRACKS_SIZE, 35⟩

/-- A BAM whose every bitmap byte is 0xFF and every free count 21:
sector (1,0) starts free. -/
def bamFree : BAM :=
  ⟨35, fun _ => 21, fun _ _ => 255, List.replicate 16 0xA0, [0x32, 0x41], 0x41⟩

/-- A BAM whose every bitmap byte is 0 and every free count 0:
sector (1,0) starts allocated. -/
def bamAlloc : BAM :=
  ⟨35, fun _ => 0, fun _ _ => 0, List.replicate 16 0xA0, [0x32, 0x41], 0x41⟩

/-- A 35-track image whose BAM marks exactly one sector free: track 1,
sector 20 (free count 1, bitmap byte 2 of track 1 = 0b00010000), with an
empty directory sector at (18,1).  find_free_sector returns (1,20); the
last sector of track 1, so inserting more than 254 bytes rolls the
second chunk over to (2,0). -/
def imgC7 : D64 :=
  ⟨fun i => if i = 91392 + 4 then 1 else if i = 91392 + 7 then 16 else 0,
   D64_35_TRACKS_SIZE, 35⟩

/-- The image imgC7 after insert_file("B", [0, 1, ..., 255]). -/
def dC7 : D64 :=
  match imgC7.insert_file "B" (List.range 256) 10 with
  | some (.ok x) => x
  | _ => imgC7

/-- The directory sector (18,1) of imgCyc as a literal list. -/
def cycDirSec : List Nat := [0, 0, 130, 1, 0, 65] ++ List.replicate 15 32 ++ List.replicate 235 0

/-- The data sector (1,0) of imgCyc as a literal list: links to itself. -/
def cycSec10 : List Nat := 1 :: List.replicate 255 0

/-- The image after D64::allocate_sector(1, 0) on the all-zero image. -/
def dC10 : D64 :=
  match d64_35.allocate_sector 1 0 with
  | .ok x => x
  | .error _ => d64_35

/-! Theorems. -/

lemma except_bind_ok {ε α β : Type} {x : Except ε α} {f : α → Except ε β} {b : β}
    (h : x.bind f = .ok b) : ∃ a, x = .ok a ∧ f a = .ok b := by
  cases x with
  | error e => simp [Except.bind] at h
  | ok a => exact ⟨a, rfl, h⟩

lemma list_map_id_of {α : Type} (l : List α) (f : α → α) (P : α → Prop)
    (h : ∀ c ∈ l, P c) (hf : ∀ c, P c → f c = c) : l.map f = l := by
  induction l with
  | nil => rfl
  | cons c cs ih =>
    simp only [List.map_cons]
    rw [hf c (h c (by simp)), ih (fun x hx => h x (by simp [hx]))]

lemma char_ofNat_toNat (c : Char) (h : c.toNat < 0xd800) :
    Char.ofNat c.toNat = c := by
  apply Char.eq_of_val_eq
  have hv : c.toNat.isValidChar := Or.inl h
  simp only [Char.ofNat, hv, dite_true, Char.ofNatAux]
  obtain ⟨⟨bv⟩, hval⟩ := c
  apply congrArg
  apply BitVec.eq_of_toNat_eq
  simp [Char.toNat, UInt32.toNat]

/-- C1: end-to-end behavior of new(35), format("TEST DISK", "2A"),
insert_file("TEST FILE", b"Hello, World!").  The code does not behave as
claimed (and as its own test test_file_operations asserts): the
directory entry is zero-padded rather than 0xA0-padded and the decoder
turns those zero bytes into question marks, so list_files returns
"TEST FILE???????", extract_file("TEST FILE") fails with FileNotFound,
and get_disk_name returns "TEST DISK???????"; only get_disk_id returns
"2A" as claimed. -/
theorem c1_end_to_end_behavior :
    D64.new 35 = .ok d64_35 ∧
    d64_35.format "TEST DISK" "2A" = some (.ok dC1a) ∧
    dC1a.insert_file "TEST FILE" helloBytes 40 = some (.ok dC1b) ∧
    dC1b.list_files 40 = some (.ok ["TEST FILE???????"]) ∧
    dC1b.extract_file "TEST FILE" 40 = some (.error .fileNotFound) ∧
    (dC1b.read_bam).map BAM.get_disk_name = .ok "TEST DISK???????" ∧
    (dC1b.read_bam).map BAM.get_disk_id = .ok "2A" :=
  ⟨rfl, rfl, rfl, by decide, by decide, by decide, by decide⟩

/-- C2 counterexample: on the freshly formatted image dC1a the first
directory sector has link bytes (0, 0xFF); find_file follows the sector
byte alone, reads (18, 255) and fails with InvalidTrackSector, not with
FileNotFound as the claim states. -/
theorem c2_fresh_format_lookup_counterexample :
    dC1a.find_file "ANY" 20 = some (.error .invalidTrackSector) ∧
    dC1a.find_file "ANY" 20 ≠ some (.error .fileNotFound) := by
  decide

/-- C3 counterexample: the lowercase letter a does not round-trip
through the codec; it comes back as the uppercase A. -/
theorem c3_lowercase_counterexample :
    petscii_to_ascii (ascii_to_petscii "a") = "A" ∧ ("A" : String) ≠ "a" := by
  decide

/-- C4 counterexample: after format on a 35-track image the stored free
count of track 19 (BAM sector byte 4 + 18 * 4) is 0, not
sectors_per_track(19) = 19: the format loop zeroes tracks 18 and 19. -/
theorem c4_track19_counterexample :
    dC1a.data (91392 + (4 + 18 * 4)) = 0 ∧
    SECTORS_PER_TRACK.getD 18 0 = 19 ∧ (0 : Nat) ≠ 19 := by
  decide

/-- C5 counterexample: with sector (1,0) starting free, free_sector then
allocate_sector does not restore the state (the bit ends cleared and the
count decremented); with the sector starting allocated, allocate_sector
then free_sector does not restore it either. -/
theorem c5_order_counterexample :
    Except.map (fun b => (b.bitmap 0 0, b.free_sectors 0))
      ((bamFree.free_sector 1 0).bind (fun x => x.allocate_sector 1 0)) =
        .ok (254, 20) ∧
    (bamFree.bitmap 0 0, bamFree.free_sectors 0) = (255, 21) ∧
    Except.map (fun b => (b.bitmap 0 0, b.free_sectors 0))
      ((bamAlloc.allocate_sector 1 0).bind (fun x => x.free_sector 1 0)) =
        .ok (1, 1) ∧
    (bamAlloc.bitmap 0 0, bamAlloc.free_sectors 0) = (0, 0) := by
  decide

/-- C9: two uncontrolled aborts the claim rules out.  set_disk_id with
an input encoding to fewer than 2 bytes panics (id_bytes[..2] out of
range), and extract_file panics on a well-addressed terminal sector
whose length byte is 255 (slice data[2..257] out of range); none models
the panic. -/
theorem c9_panics :
    bamAlloc.set_disk_id "" = none ∧
    imgLen255.extract_file "A" 40 = none :=
  ⟨rfl, by decide⟩

lemma findFileLoop_of_exhausts (d : D64) (name : String) :
    ∀ fuel s, dirChainExhaustsLoop d name fuel s = true →
      findFileLoop d name fuel s = some (.error .fileNotFound) := by
  intro fuel
  induction fuel with
  | zero => intro s h; simp [dirChainExhaustsLoop] at h
  | succ n ih =>
    intro s h
    simp only [dirChainExhaustsLoop] at h
    simp only [findFileLoop]
    cases hr : d.read_sector 18 s with
    | error e => rw [hr] at h; simp at h
    | ok data =>
      rw [hr] at h
      have h2 : (match scanSlotsFind data name with
          | some _ => false
          | none => if data.getD 1 0 = 0 then true
                    else dirChainExhaustsLoop d name n (data.getD 1 0)) = true := h
      show (match scanSlotsFind data name with
          | some ts => some (Except.ok ts)
          | none => if data.getD 1 0 = 0 then some (Except.error D64Error.fileNotFound)
                    else findFileLoop d name n (data.getD 1 0)) =
        some (Except.error D64Error.fileNotFound)
      cases hscan : scanSlotsFind data name with
      | some ts => rw [hscan] at h2; simp at h2
      | none =>
        rw [hscan] at h2
        dsimp only at h2 ⊢
        by_cases hz : data.getD 1 0 = 0
        · rw [if_pos hz]
        · rw [if_neg hz] at h2 ⊢
          exact ih _ h2

/-- C2 (amended): whenever the directory chain, followed through the
next-sector link byte exactly as find_file follows it, reaches a sector
whose link byte is zero without containing a visible matching entry,
find_file returns the file-not-found error.  (As the counterexample
shows, a freshly formatted image is not such an image: its link bytes
(0, 0xFF) send find_file to an invalid sector instead.) -/
theorem c2_exhausted_chain_not_found (d : D64) (name : String) (fuel : Nat)
    (h : dirChainExhaustsLoop d name fuel 1 = true) :
    d.find_file name fuel = some (.error .fileNotFound) :=
  findFileLoop_of_exhausts d name fuel 1 h

theorem c2_exhausted_chain_not_found_witness :
    dirChainExhaustsLoop d64_35 "X" 1 1 = true ∧
    d64_35.find_file "X" 1 = some (.error .fileNotFound) :=
  ⟨by decide, c2_exhausted_chain_not_found d64_35 "X" 1 (by decide)⟩

/-- C3 (amended): the codec round-trips exactly the strings whose every
character lies in the native printable band 0x20..0x5F (space through
underscore, including digits, punctuation and uppercase letters);
lowercase letters come back uppercased and do not round-trip. -/
theorem c3_printable_band_roundtrip (s : String)
    (h : ∀ c ∈ s.data, 0x20 ≤ c.toNat ∧ c.toNat ≤ 0x5F) :
    petscii_to_ascii (ascii_to_petscii s) = s := by
  obtain ⟨l⟩ := s
  simp only [petscii_to_ascii, ascii_to_petscii, String.data] at h ⊢
  congr 1
  rw [List.map_map]
  apply list_map_id_of l _ (fun c => 0x20 ≤ c.toNat ∧ c.toNat ≤ 0x5F) h
  intro c hc
  simp only [Function.comp]
  rw [if_pos hc, if_pos hc]
  exact char_ofNat_toNat c (by omega)

theorem c3_printable_band_roundtrip_witness :
    petscii_to_ascii (ascii_to_petscii "TEST DISK") = "TEST DISK" :=
  c3_printable_band_roundtrip "TEST DISK" (by decide)

lemma traceLoop_imgCyc (f : Nat) : ∀ acc, traceLoop imgCyc f 1 0 acc = none := by
  induction f with
  | zero => intro acc; rfl
  | succ n ih => intro acc; exact ih (acc ++ [(1, 0)])

/-- C6: trace_file does not terminate on a cyclic data chain.  On imgCyc,
whose file "A" starts at sector (1,0) and whose sector (1,0) links to
itself, the chain walk never reaches a next-track byte of 0: for every
fuel bound the walk is still running (none models the divergence), so
the code loops forever instead of maintaining a visited set and failing
with a corruption error as the claim states. -/
theorem c6_trace_file_diverges (fuel : Nat) :
    imgCyc.trace_file "A" fuel = none := by
  cases fuel with
  | zero => rfl
  | succ f =>
    have h : imgCyc.trace_file "A" (f + 1) = traceLoop imgCyc (f + 1) 1 0 [] := rfl
    rw [h]
    exact traceLoop_imgCyc (f + 1) []

/-- C7: inserting 256 bytes on imgC7 places the first chunk at (1,20)
and rolls the second chunk over to (2,0) (byte offset 5376: link bytes
(0,2) and first payload byte 254 confirm the 2-byte terminal chunk is
there), but the link bytes written into the sector at (1,20) (byte
offset 5120) are (1,21) - an address sector_offset rejects as invalid -
and not the (2,0) where the next chunk was actually written, refuting
the claim that the link bytes equal the next actual location. -/
theorem c7_stale_link_on_rollover :
    imgC7.insert_file "B" (List.range 256) 10 = some (.ok dC7) ∧
    dC7.data 5120 = 1 ∧ dC7.data 5121 = 21 ∧
    dC7.sector_offset 1 21 = .error .invalidTrackSector ∧
    dC7.data 5376 = 0 ∧ dC7.data 5377 = 2 ∧ dC7.data 5378 = 254 :=
  ⟨rfl, by decide, by decide, by decide, by decide, by decide, by decide⟩

lemma write_sector_18_0_ok {d d2 : D64} {blk : List Nat}
    (h : d.write_sector 18 0 blk = .ok d2) :
    d2.data = (fun i =>
      if 91392 ≤ i ∧ i < 91392 + 256 then blk.getD (i - 91392) 0 else d.data i) ∧
    d2.tracks = d.tracks ∧ d2.size = d.size := by
  unfold D64.write_sector D64.sector_offset at h
  by_cases ht : 18 > d.tracks
  · rw [if_pos (Or.inr (Or.inl ht))] at h
    simp [Except.map] at h
  · have hcond : ¬(18 = 0 ∨ 18 > d.tracks ∨ 0 ≥ SECTORS_PER_TRACK.getD (18 - 1) 0) := by
      push_neg
      exact ⟨by omega, by omega, by decide⟩
    rw [if_neg hcond] at h
    simp only [Except.map] at h
    have h2 := h
    injection h2 with h3
    rw [← h3]
    refine ⟨?_, rfl, rfl⟩
    have hoff : preBytes (18 - 1) + 0 * 256 = 91392 := by decide
    simp only [hoff]

/-- C10: whenever D64::allocate_sector or D64::free_sector succeeds, the
only bytes it can change are the 256 bytes of the BAM sector at
(track 18, sector 0), which occupy offsets 91392..91647; every byte at
any other offset, and the track count and buffer size, are unchanged. -/
theorem c10_bam_ops_frame (d d2 : D64) (t s i : Nat)
    (h : d.allocate_sector t s = .ok d2 ∨ d.free_sector t s = .ok d2)
    (hi : i < 91392 ∨ 91648 ≤ i) :
    d2.data i = d.data i ∧ d2.tracks = d.tracks ∧ d2.size = d.size := by
  have hw : ∃ blk, d.write_sector 18 0 blk = .ok d2 := by
    rcases h with h | h
    · unfold D64.allocate_sector at h
      obtain ⟨bam, _, h2⟩ := except_bind_ok h
      obtain ⟨bam2, _, h3⟩ := except_bind_ok h2
      exact ⟨bam2.to_sector_data, h3⟩
    · unfold D64.free_sector at h
      obtain ⟨bam, _, h2⟩ := except_bind_ok h
      obtain ⟨bam2, _, h3⟩ := except_bind_ok h2
      exact ⟨bam2.to_sector_data, h3⟩
  obtain ⟨blk, hwr⟩ := hw
  obtain ⟨hdata, htr, hsz⟩ := write_sector_18_0_ok hwr
  refine ⟨?_, htr, hsz⟩
  simp only [hdata]
  rw [if_neg (by omega)]

theorem c10_bam_ops_frame_witness :
    d64_35.allocate_sector 1 0 = .ok dC10 ∧
    (dC10.data 0 = d64_35.data 0 ∧ dC10.tracks = d64_35.tracks ∧ dC10.size = d64_35.size) :=
  ⟨rfl, c10_bam_ops_frame d64_35 dC10 1 0 0 (Or.inl rfl) (Or.inl (by omega))⟩

lemma preBytes_mono {a c : Nat} (h : a ≤ c) : preBytes a ≤ preBytes c := by
  induction h with
  | refl => exact Nat.le_refl _
  | step _ ih => exact Nat.le_trans ih (Nat.le_add_right _ _)

lemma preBytes_succ (t : Nat) (ht : 1 ≤ t) :
    preBytes t = preBytes (t - 1) + SECTORS_PER_TRACK.getD (t - 1) 0 * 256 := by
  conv_lhs => rw [show t = (t - 1) + 1 by omega]
  rfl

lemma offset_block_le {t s : Nat} (ht : 1 ≤ t)
    (hs : s < SECTORS_PER_TRACK.getD (t - 1) 0) :
    preBytes (t - 1) + s * 256 + 256 ≤ preBytes t := by
  have h1 := preBytes_succ t ht
  have h2 : (s + 1) * 256 ≤ SECTORS_PER_TRACK.getD (t - 1) 0 * 256 :=
    Nat.mul_le_mul_right _ hs
  omega

lemma sector_offset_ok_iff {d : D64} {t s o : Nat} :
    d.sector_offset t s = .ok o ↔
      (1 ≤ t ∧ t ≤ d.tracks ∧ s < SECTORS_PER_TRACK.getD (t - 1) 0 ∧
       o = preBytes (t - 1) + s * 256) := by
  unfold D64.sector_offset
  by_cases h : t = 0 ∨ t > d.tracks ∨ s ≥ SECTORS_PER_TRACK.getD (t - 1) 0
  · rw [if_pos h]
    constructor
    · intro hh; cases hh
    · intro ⟨h1, h2, h3, _⟩; omega
  · rw [if_neg h]
    push_neg at h
    constructor
    · intro hh; injection hh with hh; exact ⟨by omega, by omega, by omega, hh.symm⟩
    · intro ⟨_, _, _, h4⟩; rw [h4]

lemma exists_tile (T : Nat) : ∀ i, i < preBytes T →
    ∃ t s, 1 ≤ t ∧ t ≤ T ∧ s < SECTORS_PER_TRACK.getD (t - 1) 0 ∧
      preBytes (t - 1) + s * 256 ≤ i ∧ i < preBytes (t - 1) + s * 256 + 256 := by
  induction T with
  | zero => intro i hi; simp [preBytes] at hi
  | succ n ih =>
    intro i hi
    by_cases h : i < preBytes n
    · obtain ⟨t, s, a1, a2, a3, a4, a5⟩ := ih i h
      exact ⟨t, s, a1, by omega, a3, a4, a5⟩
    · have hub : i < preBytes n + SECTORS_PER_TRACK.getD n 0 * 256 := by
        have : preBytes (n + 1) = preBytes n + SECTORS_PER_TRACK.getD n 0 * 256 := rfl
        omega
      have hmod := Nat.div_add_mod (i - preBytes n) 256
      have hmlt : (i - preBytes n) % 256 < 256 := Nat.mod_lt _ (by omega)
      refine ⟨n + 1, (i - preBytes n) / 256, by omega, Nat.le_refl _, ?_, ?_, ?_⟩
      · have : (i - preBytes n) / 256 < SECTORS_PER_TRACK.getD n 0 := by
          rw [Nat.div_lt_iff_lt_mul (by omega : 0 < 256)]
          omega
        simpa using this
      · have hdm : (i - preBytes n) / 256 * 256 ≤ i - preBytes n := Nat.div_mul_le_self _ _
        simp only [Nat.add_sub_cancel]
        omega
      · simp only [Nat.add_sub_cancel]
        omega

/-- C8: over a well-formed image, sector_offset is injective on valid
(track, sector) pairs, the 256-byte blocks of distinct valid pairs are
disjoint, every byte offset of the buffer falls inside the block of some
valid pair (no gaps, no overlaps: the blocks tile the buffer), and every
invalid pair is rejected with the invalid-track/sector error. -/
theorem c8_sector_offset_tiling (d : D64)
    (hd : (d.tracks = 35 ∧ d.size = D64_35_TRACKS_SIZE) ∨
          (d.tracks = 40 ∧ d.size = D64_40_TRACKS_SIZE)) :
    (∀ t1 s1 t2 s2 o1 o2, d.sector_offset t1 s1 = .ok o1 →
        d.sector_offset t2 s2 = .ok o2 → o1 = o2 → t1 = t2 ∧ s1 = s2) ∧
    (∀ t1 s1 t2 s2 o1 o2, d.sector_offset t1 s1 = .ok o1 →
        d.sector_offset t2 s2 = .ok o2 → ¬(t1 = t2 ∧ s1 = s2) →
        o1 + 256 ≤ o2 ∨ o2 + 256 ≤ o1) ∧
    (∀ i, i < d.size → ∃ t s o, d.sector_offset t s = .ok o ∧ o ≤ i ∧ i < o + 256) ∧
    (∀ t s, (t = 0 ∨ t > d.tracks ∨ s ≥ SECTORS_PER_TRACK.getD (t - 1) 0) →
        d.sector_offset t s = .error .invalidTrackSector) := by
  have hdisj : ∀ t1 s1 t2 s2 o1 o2, d.sector_offset t1 s1 = .ok o1 →
      d.sector_offset t2 s2 = .ok o2 → ¬(t1 = t2 ∧ s1 = s2) →
      o1 + 256 ≤ o2 ∨ o2 + 256 ≤ o1 := by
    intro t1 s1 t2 s2 o1 o2 h1 h2 hne
    obtain ⟨a1, a2, a3, a4⟩ := sector_offset_ok_iff.mp h1
    obtain ⟨b1, b2, b3, b4⟩ := sector_offset_ok_iff.mp h2
    rcases Nat.lt_trichotomy t1 t2 with hlt | heq | hgt
    · left
      have c1 := offset_block_le a1 a3
      have c2 : preBytes t1 ≤ preBytes (t2 - 1) := preBytes_mono (by omega)
      omega
    · subst heq
      have hs : s1 ≠ s2 := fun hh => hne ⟨rfl, hh⟩
      rcases Nat.lt_trichotomy s1 s2 with hslt | hseq | hsgt
      · left
        have : (s1 + 1) * 256 ≤ s2 * 256 := Nat.mul_le_mul_right _ hslt
        omega
      · exact absurd hseq hs
      · right
        have : (s2 + 1) * 256 ≤ s1 * 256 := Nat.mul_le_mul_right _ hsgt
        omega
    · right
      have c1 := offset_block_le b1 b3
      have c2 : preBytes t2 ≤ preBytes (t1 - 1) := preBytes_mono (by omega)
      omega
  refine ⟨?_, hdisj, ?_, ?_⟩
  · intro t1 s1 t2 s2 o1 o2 h1 h2 heq
    by_contra hne
    rcases hdisj t1 s1 t2 s2 o1 o2 h1 h2 hne with h | h <;> omega
  · intro i hi
    have hpre : i < preBytes d.tracks := by
      rcases hd with ⟨h1, h2⟩ | ⟨h1, h2⟩ <;> rw [h1]
      · have : preBytes 35 = D64_35_TRACKS_SIZE := by decide
        omega
      · have : preBytes 40 = D64_40_TRACKS_SIZE := by decide
        omega
    obtain ⟨t, s, a1, a2, a3, a4, a5⟩ := exists_tile d.tracks i hpre
    exact ⟨t, s, preBytes (t - 1) + s * 256,
      sector_offset_ok_iff.mpr ⟨a1, a2, a3, rfl⟩, a4, a5⟩
  · intro t s h
    unfold D64.sector_offset
    rw [if_pos (by omega)]

theorem c8_sector_offset_tiling_witness :
    d64_35.sector_offset 0 0 = .error .invalidTrackSector :=
  (c8_sector_offset_tiling d64_35 (Or.inl ⟨rfl, rfl⟩)).2.2.2 0 0 (Or.inl rfl)

lemma getD_take_lt {l : List Nat} {n k : Nat} (h : k < n) :
    (l.take n).getD k 0 = l.getD k 0 := by
  simp [List.getD_eq_getElem?_getD, List.getElem?_take_of_lt h]

lemma foldl_length_preserved {β : Type} (g : List Nat → β → List Nat)
    (hg : ∀ l b, (g l b).length = l.length) :
    ∀ (ts : List β) (l : List Nat), (List.foldl g l ts).length = l.length := by
  intro ts
  induction ts with
  | nil => intro l; rfl
  | cons b bs ih => intro l; rw [List.foldl_cons, ih, hg]

lemma formatBamCore_length (tracks : Nat) : (formatBamCore tracks).length = 256 := by
  unfold formatBamCore
  rw [foldl_length_preserved _ (by intro l b; simp),
      foldl_length_preserved _ (by intro l b; simp)]
  simp

lemma formatBamSector_getD_lt144 (tracks : Nat) (nb ib : List Nat) {k : Nat}
    (hk : k < 144) :
    (formatBamSector tracks nb ib).getD k 0 = (formatBamCore tracks).getD k 0 := by
  unfold formatBamSector
  have hcore := formatBamCore_length tracks
  have hl3 : 144 ≤ ((formatBamCore tracks).take 144 ++ nb ++
      (formatBamCore tracks).drop (144 + nb.length)).length := by
    simp only [List.length_append, List.length_take, List.length_drop, hcore]
    omega
  rw [List.getD_append _ _ _ _
    (by simp only [List.length_append, List.length_take]; omega)]
  rw [List.getD_append _ _ _ _ (by simp only [List.length_take]; omega)]
  rw [getD_take_lt (by omega)]
  rw [List.getD_append _ _ _ _
    (by simp only [List.length_append, List.length_take, hcore]; omega)]
  rw [List.getD_append _ _ _ _ (by simp only [List.length_take, hcore]; omega)]
  rw [getD_take_lt hk]

lemma sector_offset_18_0 {d : D64} (ht : 18 ≤ d.tracks) :
    d.sector_offset 18 0 = .ok 91392 :=
  sector_offset_ok_iff.mpr ⟨by omega, ht, by decide, by decide⟩

lemma sector_offset_18_1 {d : D64} (ht : 18 ≤ d.tracks) :
    d.sector_offset 18 1 = .ok 91648 :=
  sector_offset_ok_iff.mpr ⟨by omega, ht, by decide, by decide⟩

lemma write_sector_ok {d d2 : D64} {t s off : Nat} {blk : List Nat}
    (hoff : d.sector_offset t s = .ok off)
    (h : d.write_sector t s blk = .ok d2) :
    d2.data = (fun i =>
      if off ≤ i ∧ i < off + 256 then blk.getD (i - off) 0 else d.data i) ∧
    d2.tracks = d.tracks ∧ d2.size = d.size := by
  unfold D64.write_sector at h
  rw [hoff] at h
  simp only [Except.map] at h
  injection h with h3
  rw [← h3]
  exact ⟨rfl, rfl, rfl⟩

lemma format_ok_data {d dF : D64} {nm id : String} (ht : 18 ≤ d.tracks)
    (h : d.format nm id = some (.ok dF)) :
    ∀ k, k < 256 → dF.data (91392 + k) =
      (formatBamSector d.tracks (ascii_to_petscii nm) (ascii_to_petscii id)).getD k 0 := by
  intro k hk
  unfold D64.format at h
  by_cases hg : 144 + (ascii_to_petscii nm).length ≤ 256 ∧
      (ascii_to_petscii id).length = 2
  · rw [if_pos hg] at h
    injection h with h
    obtain ⟨d1, h1, h2⟩ := except_bind_ok h
    have ht1 : (18 : Nat) ≤ (D64.mk (fun _ => 0) d.size d.tracks).tracks := ht
    obtain ⟨e1, etr1, _⟩ := write_sector_ok (sector_offset_18_0 ht1) h1
    have ht2 : (18 : Nat) ≤ d1.tracks := by rw [etr1]; exact ht
    obtain ⟨e2, _, _⟩ := write_sector_ok (sector_offset_18_1 ht2) h2
    simp only [e2]
    rw [if_neg (by omega)]
    simp only [e1]
    rw [if_pos (by omega)]
    rw [show 91392 + k - 91392 = k by omega]
  · rw [if_neg hg] at h
    cases h

lemma spt_le_21 (i : Nat) : SECTORS_PER_TRACK.getD i 0 ≤ 21 := by
  by_cases h : i < 40
  · have hall : ∀ j, j < 40 → SECTORS_PER_TRACK.getD j 0 ≤ 21 := by decide
    exact hall i h
  · rw [List.getD_eq_default]
    · omega
    · have hlen : SECTORS_PER_TRACK.length = 40 := by decide
      omega

lemma core_fact_35 : ∀ t, t < 36 → (1 ≤ t → t ≠ 18 → t ≠ 19 →
    ((formatBamCore 35).getD (4 + (t - 1) * 4) 0 = SECTORS_PER_TRACK.getD (t - 1) 0 ∧
     ∀ s, s < SECTORS_PER_TRACK.getD (t - 1) 0 →
       Nat.testBit ((formatBamCore 35).getD (5 + (t - 1) * 4 + s / 8) 0) (s % 8) = true)) := by
  decide

lemma core_fact_40 : ∀ t, t < 36 → (1 ≤ t → t ≠ 18 → t ≠ 19 →
    ((formatBamCore 40).getD (4 + (t - 1) * 4) 0 = SECTORS_PER_TRACK.getD (t - 1) 0 ∧
     ∀ s, s < SECTORS_PER_TRACK.getD (t - 1) 0 →
       Nat.testBit ((formatBamCore 40).getD (5 + (t - 1) * 4 + s / 8) 0) (s % 8) = true)) := by
  decide

/-- C4 (amended): after format, every track t up to 35 other than 18 AND
19 has its stored free count equal to sectors_per_track(t) and every
bitmap bit at a valid sector index of t set.  The claim fails as stated
because the format loop zeroes the Free-Space-Map entries of both track
18 and track 19 (and, on a 40-track image, the entries of tracks 36-40
are then overwritten by the name and id fields at offsets 144-163). -/
theorem c4_format_free_space_map (d dF : D64) (nm id : String)
    (hd : d.tracks = 35 ∨ d.tracks = 40)
    (hF : d.format nm id = some (.ok dF)) (t : Nat)
    (h1 : 1 ≤ t) (h35 : t ≤ 35) (_htr : t ≤ d.tracks) (h18 : t ≠ 18) (h19 : t ≠ 19) :
    dF.data (91392 + (4 + (t - 1) * 4)) = SECTORS_PER_TRACK.getD (t - 1) 0 ∧
    ∀ s, s < SECTORS_PER_TRACK.getD (t - 1) 0 →
      Nat.testBit (dF.data (91392 + (5 + (t - 1) * 4 + s / 8))) (s % 8) = true := by
  have ht18 : 18 ≤ d.tracks := by rcases hd with h | h <;> omega
  have hcore : (formatBamCore d.tracks).getD (4 + (t - 1) * 4) 0 =
      SECTORS_PER_TRACK.getD (t - 1) 0 ∧
      ∀ s, s < SECTORS_PER_TRACK.getD (t - 1) 0 →
        Nat.testBit ((formatBamCore d.tracks).getD (5 + (t - 1) * 4 + s / 8) 0)
          (s % 8) = true := by
    rcases hd with h | h <;> rw [h]
    · exact core_fact_35 t (by omega) h1 h18 h19
    · exact core_fact_40 t (by omega) h1 h18 h19
  obtain ⟨hcnt, hbit⟩ := hcore
  constructor
  · rw [format_ok_data ht18 hF _ (by omega),
        formatBamSector_getD_lt144 _ _ _ (by omega)]
    exact hcnt
  · intro s hs
    have hsle : s ≤ 20 := by have := spt_le_21 (t - 1); omega
    rw [format_ok_data ht18 hF _ (by omega),
        formatBamSector_getD_lt144 _ _ _ (by omega)]
    exact hbit s hs

theorem c4_format_free_space_map_witness :
    dC1a.data (91392 + (4 + (1 - 1) * 4)) = SECTORS_PER_TRACK.getD (1 - 1) 0 ∧
    ∀ s, s < SECTORS_PER_TRACK.getD (1 - 1) 0 →
      Nat.testBit (dC1a.data (91392 + (5 + (1 - 1) * 4 + s / 8))) (s % 8) = true :=
  c4_format_free_space_map d64_35 dC1a "TEST DISK" "2A" (Or.inl rfl) rfl 1
    (by decide) (by decide) (by decide) (by decide) (by decide)

lemma and_shift_ne_zero_iff (x b : Nat) :
    x &&& (1 <<< b) ≠ 0 ↔ x.testBit b = true := by
  rw [Nat.shiftLeft_eq, Nat.one_mul, Nat.and_two_pow]
  cases h : x.testBit b <;> simp [h]

lemma cleared_bit_and (x b : Nat) (hb : b < 8) :
    (x &&& (255 ^^^ (1 <<< b))) &&& (1 <<< b) = 0 := by
  apply Nat.eq_of_testBit_eq
  intro i
  have h255 : (255 : Nat) = 2 ^ 8 - 1 := by norm_num
  simp only [Nat.testBit_and, Nat.testBit_xor, Nat.zero_testBit, h255,
    Nat.testBit_two_pow_sub_one, Nat.shiftLeft_eq, Nat.one_mul, Nat.testBit_two_pow]
  by_cases hbi : b = i <;> simp [hbi]
  omega

lemma clear_then_set (x b : Nat) (hb : b < 8) (hx : x < 256)
    (hset : x.testBit b = true) :
    (x &&& (255 ^^^ (1 <<< b))) ||| (1 <<< b) = x := by
  apply Nat.eq_of_testBit_eq
  intro i
  have h255 : (255 : Nat) = 2 ^ 8 - 1 := by norm_num
  simp only [Nat.testBit_or, Nat.testBit_and, Nat.testBit_xor, h255,
    Nat.testBit_two_pow_sub_one, Nat.shiftLeft_eq, Nat.one_mul, Nat.testBit_two_pow]
  by_cases hbi : b = i
  · subst hbi
    simp [hset, hb]
  · by_cases hi8 : i < 8
    · simp [hbi, hi8]
    · have h2i : 256 ≤ 2 ^ i := by
        calc (256 : Nat) = 2 ^ 8 := by norm_num
        _ ≤ 2 ^ i := Nat.pow_le_pow_right (by omega) (by omega)
      have hlow : x.testBit i = false := Nat.testBit_lt_two_pow (by omega)
      simp [hbi, hi8, hlow]

lemma set_bit_and_ne (x b : Nat) : (x ||| (1 <<< b)) &&& (1 <<< b) ≠ 0 := by
  rw [and_shift_ne_zero_iff]
  simp [Nat.testBit_or, Nat.shiftLeft_eq, Nat.one_mul, Nat.testBit_two_pow]

lemma set_then_clear (x b : Nat) (hb : b < 8) (hx : x < 256)
    (hclear : x.testBit b = false) :
    (x ||| (1 <<< b)) &&& (255 ^^^ (1 <<< b)) = x := by
  apply Nat.eq_of_testBit_eq
  intro i
  have h255 : (255 : Nat) = 2 ^ 8 - 1 := by norm_num
  simp only [Nat.testBit_and, Nat.testBit_or, Nat.testBit_xor, h255,
    Nat.testBit_two_pow_sub_one, Nat.shiftLeft_eq, Nat.one_mul, Nat.testBit_two_pow]
  by_cases hbi : b = i
  · subst hbi
    simp [hclear, hb]
  · by_cases hi8 : i < 8
    · simp [hbi, hi8]
    · have h2i : 256 ≤ 2 ^ i := by
        calc (256 : Nat) = 2 ^ 8 := by norm_num
        _ ≤ 2 ^ i := Nat.pow_le_pow_right (by omega) (by omega)
      have hlow : x.testBit i = false := Nat.testBit_lt_two_pow (by omega)
      simp [hbi, hi8, hlow]

/-- C5 (amended): on any in-range sector with well-formed u8 fields,
allocate_sector then free_sector restores the bitmap byte and the free
count exactly WHEN the sector starts free, free_sector then
allocate_sector restores them exactly WHEN the sector starts allocated,
and repeating either operation is a no-op.  (As the counterexample
shows, the orders cannot be swapped: the first operation applied to a
sector already in its target state is a no-op and the second then moves
the state.) -/
theorem c5_alloc_free_roundtrip (b : BAM) (t s : Nat)
    (h1 : 1 ≤ t) (h2 : t ≤ b.tracks) (h3 : s < SECTORS_PER_TRACK.getD (t - 1) 0)
    (hbyte : b.bitmap (t - 1) (s / 8) < 256) (hcnt : b.free_sectors (t - 1) < 256) :
    (b.bitmap (t - 1) (s / 8) &&& (1 <<< (s % 8)) ≠ 0 →
      Except.map (fun x => (x.bitmap (t - 1) (s / 8), x.free_sectors (t - 1)))
        ((b.allocate_sector t s).bind (fun x => x.free_sector t s)) =
        .ok (b.bitmap (t - 1) (s / 8), b.free_sectors (t - 1))) ∧
    (b.bitmap (t - 1) (s / 8) &&& (1 <<< (s % 8)) = 0 →
      Except.map (fun x => (x.bitmap (t - 1) (s / 8), x.free_sectors (t - 1)))
        ((b.free_sector t s).bind (fun x => x.allocate_sector t s)) =
        .ok (b.bitmap (t - 1) (s / 8), b.free_sectors (t - 1))) ∧
    (b.allocate_sector t s).bind (fun x => x.allocate_sector t s) =
      b.allocate_sector t s ∧
    (b.free_sector t s).bind (fun x => x.free_sector t s) = b.free_sector t s := by
  have hguard : ¬(t = 0 ∨ t > b.tracks ∨ s ≥ SECTORS_PER_TRACK.getD (t - 1) 0) := by
    omega
  have hb8 : s % 8 < 8 := Nat.mod_lt _ (by omega)
  by_cases hbit : b.bitmap (t - 1) (s / 8) &&& (1 <<< (s % 8)) = 0
  · -- sector starts allocated
    have halloc : b.allocate_sector t s = .ok b := by
      unfold BAM.allocate_sector
      rw [if_neg hguard, if_pos hbit]
    have hfree : b.free_sector t s = .ok
        { b with
          bitmap := fun u j =>
            if u = t - 1 ∧ j = s / 8 then
              b.bitmap (t - 1) (s / 8) ||| (1 <<< (s % 8))
            else b.bitmap u j
          free_sectors := fun u =>
            if u = t - 1 then (b.free_sectors (t - 1) + 1) % 256
            else b.free_sectors u } := by
      unfold BAM.free_sector
      rw [if_neg hguard, if_neg (by simpa using hbit)]
    refine ⟨fun hne => absurd hbit hne, ?_, ?_, ?_⟩
    · intro _
      rw [hfree]
      show Except.map _ (BAM.allocate_sector _ t s) = _
      unfold BAM.allocate_sector
      rw [if_neg hguard]
      simp only [if_pos (And.intro rfl rfl), if_pos rfl]
      rw [if_neg (by simpa using set_bit_and_ne (b.bitmap (t - 1) (s / 8)) (s % 8))]
      simp only [Except.map]
      congr 1
      have hrestore := set_then_clear (b.bitmap (t - 1) (s / 8)) (s % 8) hb8 hbyte
        (by
          have := (not_iff_not.mpr (and_shift_ne_zero_iff (b.bitmap (t - 1) (s / 8)) (s % 8))).mp
            (by simpa using hbit)
          simpa using this)
      simp only [and_self, if_true]
      rw [hrestore]
      have : ((b.free_sectors (t - 1) + 1) % 256 + 255) % 256 = b.free_sectors (t - 1) := by
        omega
      rw [this]
    · rw [halloc]
      show Except.bind (Except.ok b) _ = _
      simp only [Except.bind]
      exact halloc
    · rw [hfree]
      show Except.bind (Except.ok _) _ = _
      simp only [Except.bind]
      unfold BAM.free_sector
      rw [if_neg hguard]
      rw [if_pos (by
        simp only [if_pos (And.intro rfl rfl)]
        simpa using set_bit_and_ne (b.bitmap (t - 1) (s / 8)) (s % 8))]
  · -- sector starts free
    have hfree : b.free_sector t s = .ok b := by
      unfold BAM.free_sector
      rw [if_neg hguard, if_pos (by simpa using hbit)]
    have halloc : b.allocate_sector t s = .ok
        { b with
          bitmap := fun u j =>
            if u = t - 1 ∧ j = s / 8 then
              b.bitmap (t - 1) (s / 8) &&& (255 ^^^ (1 <<< (s % 8)))
            else b.bitmap u j
          free_sectors := fun u =>
            if u = t - 1 then (b.free_sectors (t - 1) + 255) % 256
            else b.free_sectors u } := by
      unfold BAM.allocate_sector
      rw [if_neg hguard, if_neg hbit]
    refine ⟨?_, fun h0 => absurd h0 hbit, ?_, ?_⟩
    · intro _
      rw [halloc]
      show Except.map _ (BAM.free_sector _ t s) = _
      unfold BAM.free_sector
      rw [if_neg hguard]
      simp only [if_pos (And.intro rfl rfl), if_pos rfl]
      rw [if_neg (by
        simpa using cleared_bit_and (b.bitmap (t - 1) (s / 8)) (s % 8) hb8)]
      simp only [Except.map]
      congr 1
      have hrestore := clear_then_set (b.bitmap (t - 1) (s / 8)) (s % 8) hb8 hbyte
        ((and_shift_ne_zero_iff (b.bitmap (t - 1) (s / 8)) (s % 8)).mp hbit)
      simp only [and_self, if_true]
      rw [hrestore]
      have : ((b.free_sectors (t - 1) + 255) % 256 + 1) % 256 = b.free_sectors (t - 1) := by
        omega
      rw [this]
    · rw [halloc]
      show Except.bind (Except.ok _) _ = _
      simp only [Except.bind]
      unfold BAM.allocate_sector
      rw [if_neg hguard]
      rw [if_pos (by
        simp only [if_pos (And.intro rfl rfl)]
        simpa using cleared_bit_and (b.bitmap (t - 1) (s / 8)) (s % 8) hb8)]
    · rw [hfree]
      show Except.bind (Except.ok b) _ = _
      simp only [Except.bind]
      exact hfree

theorem c5_alloc_free_roundtrip_witness :
    (bamFree.bitmap (1 - 1) (0 / 8) &&& (1 <<< (0 % 8)) ≠ 0 →
      Except.map (fun x => (x.bitmap (1 - 1) (0 / 8), x.free_sectors (1 - 1)))
        ((bamFree.allocate_sector 1 0).bind (fun x => x.free_sector 1 0)) =
        .ok (bamFree.bitmap (1 - 1) (0 / 8), bamFree.free_sectors (1 - 1))) ∧
    (bamFree.bitmap (1 - 1) (0 / 8) &&& (1 <<< (0 % 8)) = 0 →
      Except.map (fun x => (x.bitmap (1 - 1) (0 / 8), x.free_sectors (1 - 1)))
        ((bamFree.free_sector 1 0).bind (fun x => x.allocate_sector 1 0)) =
        .ok (bamFree.bitmap (1 - 1) (0 / 8), bamFree.free_sectors (1 - 1))) ∧
    (bamFree.allocate_sector 1 0).bind (fun x => x.allocate_sector 1 0) =
      bamFree.allocate_sector 1 0 ∧
    (bamFree.free_sector 1 0).bind (fun x => x.free_sector 1 0) =
      bamFree.free_sector 1 0 :=
  c5_alloc_free_roundtrip bamFree 1 0 (by decide) (by decide) (by decide)
    (by decide) (by decide)

end Dtools
